import Mathlib

/-!
Work-Manager: shallow embedding and verification.

A shallow embedding of `src/work.py`, a command-line work-hour tracker and
deadline-aware to-do list, together with proofs about its session lifecycle,
week-window computation, log pruning, deadline classification, and to-do
store operations.

Conventions of the embedding:
* Timestamps (`datetime` values) are modelled as `Int` seconds since the
  local epoch 1970-01-01T00:00 (a Thursday), so `weekday t` below matches
  Python's `datetime.weekday()` (Monday = 0).
* Calendar dates (`datetime.date`) are `Date` triples compared
  lexicographically, exactly as Python compares `date` objects.
* The three persisted files (`work_log.json`, `todos.json`,
  `active_session.json`) are the fields of `FSState`.
* `sys.exit(1)` paths are modelled by an `OpResult` whose `err` field names
  the failure and whose `state` is whatever the files hold when the process
  exits.
-/

namespace WorkManager

/-- A work log entry, as persisted in `work_log.json`:
`{"start": ..., "end": ...}` (`stop_work`, src/work.py line 87). -/
structure Entry where
  start : Int
  stop : Int
deriving DecidableEq, Repr

/-- A to-do item, as persisted in `todos.json`: `{"task": ..., "group": ...}`
with an optional `"deadline"` key (`add_todo`, src/work.py lines 258-262).
`deadline = none` models an absent `"deadline"` key. -/
structure Todo where
  task : String
  group : String
  deadline : Option String
deriving DecidableEq, Repr

/-- The active-session marker `{"start_time": ...}` written by `start_work`
(src/work.py line 69). -/
structure Session where
  start_time : Int
deriving DecidableEq, Repr

/-- The persistent store: the contents of the three data files.
A missing file is the empty list (resp. `none`), as in `read_json_file`. -/
structure FSState where
  workLog : List Entry
  todos : List Todo
  activeSession : Option Session
deriving DecidableEq, Repr

/-- Errors on which the program calls `sys.exit(1)`. -/
inductive WError where
  | alreadyActive
  | invalidDeadlineFormat
  | invalidId
deriving DecidableEq, Repr

/-- Result of an operation: the persisted state when the process exits,
plus the error (if any) it exited non-zero with. -/
structure OpResult where
  state : FSState
  err : Option WError
deriving DecidableEq, Repr

/-! ## Calendar dates and `datetime.strptime(s, "%Y-%m-%d")` -/

/-- A calendar date. Python `date` objects compare as `(year, month, day)`
tuples; we mirror that with `dateLt` / `dateLe` below. -/
structure Date where
  year : Nat
  month : Nat
  day : Nat
deriving DecidableEq, Repr

/-- Python's proleptic-Gregorian leap-year rule. -/
def isLeap (y : Nat) : Bool :=
  y % 4 = 0 && (y % 100 != 0 || y % 400 = 0)

/-- Number of days in a month, as validated by Python's `date` constructor. -/
def daysInMonth (y m : Nat) : Nat :=
  if m = 2 then (if isLeap y then 29 else 28)
  else if m = 4 || m = 6 || m = 9 || m = 11 then 30
  else 31

/-- Python `date` comparison `a < b` (tuple order, as in Python). -/
def dateLt (a b : Date) : Bool :=
  decide (a.year < b.year) ||
    (decide (a.year = b.year) &&
      (decide (a.month < b.month) ||
        (decide (a.month = b.month) && decide (a.day < b.day))))

/-- Python `date` comparison `a <= b` (tuple order, as in Python). -/
def dateLe (a b : Date) : Bool :=
  dateLt a b || decide (a = b)

/-- The day after `d`: Python's `date + timedelta(days=1)`. -/
def nextDay (d : Date) : Date :=
  if d.day < daysInMonth d.year d.month then ⟨d.year, d.month, d.day + 1⟩
  else if d.month < 12 then ⟨d.year, d.month + 1, 1⟩
  else ⟨d.year + 1, 1, 1⟩

/-- Python's `date + timedelta(days=n)` for `n ≥ 0`. -/
def addDays (d : Date) (n : Nat) : Date :=
  Nat.iterate nextDay n d

/-- Numeric value of a run of decimal digits. -/
def digitsVal (cs : List Char) : Nat :=
  cs.foldl (fun a c => a * 10 + (c.toNat - 48)) 0

/-- Split a character list at every `'-'`, like the literal `-` separators in
the `strptime` format `"%Y-%m-%d"`. -/
def splitDash : List Char → List (List Char)
  | [] => [[]]
  | c :: rest =>
    if c = '-' then [] :: splitDash rest
    else
      match splitDash rest with
      | part :: parts => (c :: part) :: parts
      | [] => [[c]]

/-- The `%m` field of CPython's `strptime`: regex `1[0-2]|0[1-9]|[1-9]`
(one or two digits, month 1-12, whole token consumed). -/
def monthToken : List Char → Option Nat
  | [a] => if '1' ≤ a && a ≤ '9' then some (a.toNat - 48) else none
  | [a, b] =>
    if a = '0' && '1' ≤ b && b ≤ '9' then some (b.toNat - 48)
    else if a = '1' && '0' ≤ b && b ≤ '2' then some (10 + (b.toNat - 48))
    else none
  | _ => none

/-- The `%d` field of CPython's `strptime`: regex `3[01]|[12]\d|0[1-9]|[1-9]`
(one or two digits, day 1-31, whole token consumed). -/
def dayToken : List Char → Option Nat
  | [a] => if '1' ≤ a && a ≤ '9' then some (a.toNat - 48) else none
  | [a, b] =>
    if a = '3' && ('0' ≤ b && b ≤ '1') then some (30 + (b.toNat - 48))
    else if ('1' ≤ a && a ≤ '2') && b.isDigit then
      some ((a.toNat - 48) * 10 + (b.toNat - 48))
    else if a = '0' && '1' ≤ b && b ≤ '9' then some (b.toNat - 48)
    else none
  | _ => none

/-- Model of `datetime.strptime(s, "%Y-%m-%d")` (src/work.py lines 203 and 261):
`%Y` is exactly four digits, `%m` and `%d` as above, the whole string must
match, and the resulting `(y, m, d)` must be a valid `date`
(`1 <= y`, `d <= daysInMonth`); otherwise `ValueError`, modelled as `none`. -/
def parseDate (s : String) : Option Date :=
  match splitDash s.toList with
  | [ys, ms, ds] =>
    if ys.length = 4 && ys.all Char.isDigit then
      let y := digitsVal ys
      match monthToken ms, dayToken ds with
      | some m, some d =>
        if 1 ≤ y && d ≤ daysInMonth y m then some ⟨y, m, d⟩ else none
      | _, _ => none
    else none
  | _ => none

/-! ## Week windows (`show_log`, src/work.py lines 125-128) -/

/-- Model of `datetime.weekday()` of the timestamp `t` (Monday = 0): the local epoch
1970-01-01 is a Thursday (weekday 3). `Int.fdiv`/`Int.emod` are Python's
floor `//` and `%`. -/
def weekday (t : Int) : Int :=
  (Int.fdiv t 86400 + 3) % 7

/-- Model of `today - timedelta(days=today.weekday())` (line 126): the most recent
Monday at `t`'s own time-of-day. -/
def startOfCurrentWeek (t : Int) : Int :=
  t - weekday t * 86400

/-- Model of `start_of_week = start_of_current_week + timedelta(weeks=week_offset)`
(line 127). -/
def startOfWeek (t : Int) (off : Int) : Int :=
  startOfCurrentWeek t + off * 604800

/-- Model of `end_of_week = start_of_week + timedelta(days=7)` (line 128). -/
def endOfWeek (t : Int) (off : Int) : Int :=
  startOfWeek t off + 7 * 86400

/-- The claim's window start, in the spec's words: the most recent Monday
at MIDNIGHT shifted by `off` whole weeks. Stated for comparison with the
source's `startOfWeek`. -/
def specMidnightStartOfWeek (t : Int) (off : Int) : Int :=
  (Int.fdiv t 86400 - weekday t) * 86400 + off * 604800

/-- The filter `start_of_week <= start_time < end_of_week` used by
`show_log` (line 137) to select entries of the displayed week. -/
def inWindow (now off : Int) (e : Entry) : Bool :=
  decide (startOfWeek now off ≤ e.start) && decide (e.start < endOfWeek now off)

/-! ## Deadline checking (`check_deadlines`, src/work.py lines 190-228) -/

/-- Python truthiness of `todo.get("deadline")`: a present, non-empty string. -/
def truthyDeadline (t : Todo) : Bool :=
  match t.deadline with
  | some s => s ≠ ""
  | none => false

/-- The loop of `check_deadlines` (lines 200-209): for each item whose
`"deadline"` key is present, parse it; on `ValueError`/`TypeError` skip
(`continue`); classify `deadline_date < today` as overdue, else
`today <= deadline_date <= today + 2 days` as upcoming, in original order. -/
def classifyDeadlines (todos : List Todo) (today : Date) : List Todo × List Todo :=
  match todos with
  | [] => ([], [])
  | t :: rest =>
    let (ov, up) := classifyDeadlines rest today
    match t.deadline with
    | none => (ov, up)
    | some s =>
      match parseDate s with
      | none => (ov, up)
      | some d =>
        if dateLt d today then (t :: ov, up)
        else if dateLe today d && dateLe d (addDays today 2) then (ov, t :: up)
        else (ov, up)

/-- Model of `check_deadlines` (pure classification): returns early with nothing to
report when no item has a truthy `"deadline"` value (line 193), otherwise
runs the classification loop. Reads `todos.json` only; never writes. -/
def checkDeadlines (todos : List Todo) (today : Date) : List Todo × List Todo :=
  if todos.any truthyDeadline then classifyDeadlines todos today else ([], [])

/-- Wrapper: `check_deadlines` as a store operation (reads `TODOS_FILE`, prints,
never writes): the resulting store paired with the classified lists. -/
def checkDeadlinesOp (s : FSState) (today : Date) : FSState × (List Todo × List Todo) :=
  (s, checkDeadlines s.todos today)

/-! ## Session lifecycle (src/work.py lines 61-116) -/

/-- Model of `start_work` (lines 61-73): if a session is active, print an error and
`sys.exit(1)` (no file is touched); otherwise run `check_deadlines`
(read-only, see `checkDeadlinesOp`), write `{"start_time": now}` to the
active-session file, and enable the systemd unit (external, best-effort). -/
def startWork (s : FSState) (now : Int) : OpResult :=
  match s.activeSession with
  | some _ => ⟨s, some .alreadyActive⟩
  | none => ⟨{ s with activeSession := some ⟨now⟩ }, none⟩

/-- Model of `prune_old_logs(months_to_keep, silent)` (lines 160-185): empty log is
left alone; otherwise keep exactly the entries with
`end >= now - months_to_keep * 30.5 days` (30.5 days = 2635200 s), and
rewrite the log file only when something was pruned. Returns the new store
and the pruned count. -/
def pruneOldLogs (s : FSState) (now : Int) (monthsToKeep : Int) : FSState × Nat :=
  if s.workLog = [] then (s, 0)
  else
    let cutoff := now - monthsToKeep * 2635200
    let logsToKeep := s.workLog.filter fun e => decide (cutoff ≤ e.stop)
    let prunedCount := s.workLog.length - logsToKeep.length
    if 0 < prunedCount then ({ s with workLog := logsToKeep }, prunedCount)
    else (s, prunedCount)

/-- Constant `DEFAULT_MONTHS_TO_KEEP` (line 20). -/
def DEFAULT_MONTHS_TO_KEEP : Int := 6

/-- Model of `stop_work` (lines 75-101): with no active session, print and exit 0
(no change). Otherwise append `{"start": start_time, "end": endNow}` to the
work log, delete the active-session file, stop the systemd unit (external),
and finally `prune_old_logs(DEFAULT_MONTHS_TO_KEEP, silent=True)`, whose own
`datetime.now()` reading is `pruneNow`. -/
def stopWork (s : FSState) (endNow pruneNow : Int) : OpResult :=
  match s.activeSession with
  | none => ⟨s, none⟩
  | some sess =>
    let s1 : FSState :=
      { s with
        workLog := s.workLog ++ [⟨sess.start_time, endNow⟩],
        activeSession := none }
    ⟨(pruneOldLogs s1 pruneNow DEFAULT_MONTHS_TO_KEEP).1, none⟩

/-- Model of `show_status` (lines 103-116): read-only; reports the elapsed seconds
`now - start_time` when a session is active. -/
def showStatus (s : FSState) (now : Int) : FSState × Option Int :=
  match s.activeSession with
  | none => (s, none)
  | some sess => (s, some (now - sess.start_time))

/-- Stable insertion of `x` into `l` under the boolean order `le`
(models the stability of Python's `list.sort`). -/
def insertLe (le : α → α → Bool) (x : α) : List α → List α
  | [] => [x]
  | y :: ys => if le x y then x :: y :: ys else y :: insertLe le x ys

/-- Stable insertion sort under `le` (models `list.sort(key=...)`). -/
def sortLe (le : α → α → Bool) : List α → List α
  | [] => []
  | x :: xs => insertLe le x (sortLe le xs)

/-- Model of `show_log(week_offset)` (lines 118-158): read-only. Empty log reports
"Work log is empty". Otherwise select the entries whose `start` lies in
`[startOfWeek, endOfWeek)` (see `inWindow`), pair each with its duration
`end - start`, sort by start time, and return them (the printed weekly
total is their sum). -/
def showLog (s : FSState) (now : Int) (off : Int) : FSState × List (Int × Int) :=
  if s.workLog = [] then (s, [])
  else
    let weekSessions :=
      (s.workLog.filter (inWindow now off)).map fun e => (e.start, e.stop - e.start)
    (s, sortLe (fun a b => decide (a.1 ≤ b.1)) weekSessions)

/-! ## To-do list operations (src/work.py lines 230-282) -/

/-- Model of `list_todos` (lines 230-253): read-only. Assigns 1-based positional IDs,
groups items by their `group` in insertion order, sorts the groups by name
(`sorted(grouped_todos.items())`), and keeps each group's items in original
order. -/
def listTodos (s : FSState) : FSState × List (String × List (Nat × Todo)) :=
  if s.todos = [] then (s, [])
  else
    let names := s.todos.foldl
      (fun acc t => if acc.contains t.group then acc else acc ++ [t.group]) []
    let sortedNames := sortLe (fun a b => decide (a ≤ b)) names
    (s, sortedNames.map fun g =>
      (g, (s.todos.enum.filter fun p => p.2.group = g).map fun p => (p.1 + 1, p.2)))

/-- Model of `add_todo(task, group, deadline)` (lines 255-270): `if deadline:` is
Python truthiness, so a `None` or empty-string deadline skips validation and
the item is stored without a `"deadline"` key. A truthy deadline must
satisfy `strptime(deadline, "%Y-%m-%d")`, else print and `sys.exit(1)`
before anything is written. On success the item is appended and the file
rewritten. -/
def addTodo (s : FSState) (task group : String) (deadline : Option String) : OpResult :=
  match deadline with
  | some d =>
    if d ≠ "" then
      match parseDate d with
      | some _ => ⟨{ s with todos := s.todos ++ [⟨task, group, some d⟩] }, none⟩
      | none => ⟨s, some .invalidDeadlineFormat⟩
    else ⟨{ s with todos := s.todos ++ [⟨task, group, none⟩] }, none⟩
  | none => ⟨{ s with todos := s.todos ++ [⟨task, group, none⟩] }, none⟩

/-- Model of `remove_todo(todo_id)` (lines 272-282): requires `0 < todo_id <= len`,
else print and `sys.exit(1)` with nothing written; otherwise
`todos.pop(todo_id - 1)` and rewrite the file. -/
def removeTodo (s : FSState) (todoId : Int) : OpResult :=
  if 0 < todoId ∧ todoId ≤ s.todos.length then
    ⟨{ s with todos := s.todos.eraseIdx (todoId - 1).toNat }, none⟩
  else ⟨s, some .invalidId⟩

/-! ## Helper lemmas -/

/-- Rewrites `weekday` through Euclidean division (the divisor is positive,
so floor and Euclidean division agree). -/
theorem weekday_ediv (t : Int) : weekday t = (t / 86400 + 3) % 7 := by
  unfold weekday
  rw [Int.fdiv_eq_ediv _ (by norm_num)]

/-- Pruning always leaves the store with exactly the filtered work log,
whether or not the file was rewritten. -/
theorem pruneOldLogs_fst (s : FSState) (now m : Int) :
    (pruneOldLogs s now m).1 =
      { s with workLog :=
          s.workLog.filter fun e => decide (now - m * 2635200 ≤ e.stop) } := by
  rcases s with ⟨w, td, a⟩
  unfold pruneOldLogs
  dsimp only
  split
  · rename_i hempty
    subst hempty
    rfl
  · split
    · rfl
    · rename_i hempty hnotpos
      have hle := List.length_filter_le
        (fun e => decide (now - m * 2635200 ≤ e.stop)) w
      have hlen :
          (w.filter fun e => decide (now - m * 2635200 ≤ e.stop)).length
            = w.length := by omega
      have hfilter : w.filter (fun e => decide (now - m * 2635200 ≤ e.stop)) = w :=
        List.filter_eq_self.mpr (List.filter_length_eq_length.mp hlen)
      rw [hfilter]

/-- Totality of the lexicographic date order: `¬(a < b)` iff `b ≤ a`. -/
theorem dateLe_iff_not_dateLt (a b : Date) :
    dateLe b a = true ↔ dateLt a b = false := by
  rcases a with ⟨ay, am, ad⟩
  rcases b with ⟨b1, b2, b3⟩
  simp only [dateLt, dateLe, Bool.or_eq_true, Bool.and_eq_true,
    decide_eq_true_eq, Bool.or_eq_false_iff, Bool.and_eq_false_iff,
    decide_eq_false_iff_not, Date.mk.injEq]
  constructor
  · rintro (h | h) <;> omega
  · intro h
    omega

/-- The deadline of a to-do item, parsed: `none` when the `"deadline"` key is
absent or its value fails `strptime`. -/
def deadlineDate (t : Todo) : Option Date :=
  match t.deadline with
  | some s => parseDate s
  | none => none

/-- The claim's overdue predicate: a parsable deadline strictly before today. -/
def overdueP (today : Date) (t : Todo) : Bool :=
  match deadlineDate t with
  | some d => dateLt d today
  | none => false

/-- The claim's upcoming predicate: a parsable deadline with
`today <= deadline <= today + 2 days`. -/
def upcomingP (today : Date) (t : Todo) : Bool :=
  match deadlineDate t with
  | some d => dateLe today d && dateLe d (addDays today 2)
  | none => false

/-- The classification loop produces exactly the two filters of the claim's
predicates, in original order. -/
theorem classifyDeadlines_eq_filter (todos : List Todo) (today : Date) :
    classifyDeadlines todos today =
      (todos.filter (overdueP today), todos.filter (upcomingP today)) := by
  induction todos with
  | nil => rfl
  | cons t rest ih =>
    unfold classifyDeadlines
    rw [ih]
    rcases hdl : t.deadline with _ | s
    · simp [List.filter_cons, overdueP, upcomingP, deadlineDate, hdl]
    · rcases hpd : parseDate s with _ | d
      · simp [List.filter_cons, overdueP, upcomingP, deadlineDate, hdl, hpd]
      · rcases hlt : dateLt d today with _ | _
        · have hle : dateLe today d = true :=
            (dateLe_iff_not_dateLt d today).mpr hlt
          rcases hup : dateLe d (addDays today 2) with _ | _ <;>
            simp [List.filter_cons, overdueP, upcomingP, deadlineDate, hdl,
              hpd, hlt, hle, hup]
        · have hle : dateLe today d = false := by
            rcases h : dateLe today d with _ | _
            · rfl
            · rw [(dateLe_iff_not_dateLt d today).mp h] at hlt
              cases hlt
          simp [List.filter_cons, overdueP, upcomingP, deadlineDate, hdl, hpd,
            hlt, hle]

/-- The empty string does not parse as a date. -/
theorem parseDate_empty : parseDate "" = none := rfl

/-- An item whose `"deadline"` value is not truthy (absent key or empty
string) has no parsable deadline. -/
theorem deadlineDate_of_not_truthy (t : Todo) (h : truthyDeadline t = false) :
    deadlineDate t = none := by
  unfold truthyDeadline at h
  unfold deadlineDate
  rcases hdl : t.deadline with _ | s
  · rfl
  · rw [hdl] at h
    have hs : s = "" := by simpa using h
    rw [hs]
    exact parseDate_empty

/-! ## Claims -/

/-- C2: for every state with an Active Session Marker, `start` fails with
`AlreadyActive` (non-zero exit) and leaves the work log, the to-do list and
the active-session marker unchanged (the returned store is the input store,
all three records included). -/
theorem start_while_active_fails (s : FSState) (now : Int) (sess : Session)
    (hactive : s.activeSession = some sess) :
    startWork s now = ⟨s, some WError.alreadyActive⟩ := by
  unfold startWork
  rw [hactive]

/-- Witness for `start_while_active_fails` at a concrete active store. -/
theorem start_while_active_fails_witness :
    startWork ⟨[], [], some ⟨0⟩⟩ 5 = ⟨⟨[], [], some ⟨0⟩⟩, some WError.alreadyActive⟩ :=
  start_while_active_fails ⟨[], [], some ⟨0⟩⟩ 5 ⟨0⟩ rfl

/-- C3 counterexample: at the concrete clock reading `349200`
(Monday 01:00 local time), `show_log`'s window start with offset `0` is
`349200` itself — Monday at 01:00 — and not the most recent Monday at
midnight (`345600`), so the claimed window start is wrong whenever `now`
is not exactly at midnight. -/
theorem week_start_not_midnight_counterexample :
    weekday 349200 = 0 ∧
    startOfWeek 349200 0 = 349200 ∧
    specMidnightStartOfWeek 349200 0 = 345600 ∧
    startOfWeek 349200 0 ≠ specMidnightStartOfWeek 349200 0 := by
  decide

/-- C3 (amended): for every offset, the week window used by the log display
is `[startOfWeek, endOfWeek)` where `startOfWeek` is the most recent Monday
at the CURRENT TIME-OF-DAY (`now - weekday(now)` days, not midnight) shifted
by `offset` whole weeks — it falls on a Monday, and for offset `0` it is at
most seven days in the past — and `endOfWeek` is exactly 7 days after
`startOfWeek`, the upper bound being exclusive in the selection filter. -/
theorem week_window_monday_same_time (t off : Int) :
    startOfWeek t off = t - weekday t * 86400 + off * 604800 ∧
    weekday (startOfWeek t off) = 0 ∧
    startOfWeek t 0 ≤ t ∧ t - startOfWeek t 0 < 604800 ∧
    endOfWeek t off = startOfWeek t off + 7 * 86400 ∧
    ∀ e : Entry, inWindow t off e = true ↔
      startOfWeek t off ≤ e.start ∧ e.start < endOfWeek t off := by
  refine ⟨rfl, ?_, ?_, ?_, rfl, ?_⟩
  · unfold startOfWeek startOfCurrentWeek
    rw [weekday_ediv, weekday_ediv]
    omega
  · unfold startOfWeek startOfCurrentWeek
    rw [weekday_ediv]
    omega
  · unfold startOfWeek startOfCurrentWeek
    rw [weekday_ediv]
    omega
  · intro e
    unfold inWindow
    simp

/-- C4: for every clock reading, the offset-0 week window contains "now",
and the end of the offset-(-1) window equals the start of the offset-0
window at the same clock reading. -/
theorem week_window_contains_now_and_abuts (t : Int) :
    startOfWeek t 0 ≤ t ∧ t < endOfWeek t 0 ∧
    endOfWeek t (-1) = startOfWeek t 0 := by
  unfold endOfWeek startOfWeek startOfCurrentWeek
  rw [weekday_ediv]
  refine ⟨by omega, by omega, by ring⟩

/-- C5: for every work log and months value `m`, pruning retains exactly the
entries whose `end` is at least `now - m * 30.5 days` (30.5 days = 2635200 s)
and discards the rest; in particular an entry whose `end` equals the cutoff
exactly is retained. -/
theorem prune_retains_exactly_cutoff (s : FSState) (now m : Int) :
    (pruneOldLogs s now m).1.workLog
      = s.workLog.filter (fun e => decide (now - m * 2635200 ≤ e.stop)) ∧
    ∀ e ∈ s.workLog, e.stop = now - m * 2635200 →
      e ∈ (pruneOldLogs s now m).1.workLog := by
  have h := pruneOldLogs_fst s now m
  constructor
  · rw [h]
  · intro e he heq
    rw [h]
    dsimp only
    rw [List.mem_filter]
    refine ⟨he, ?_⟩
    rw [heq]
    simp

/-- Witness for `prune_retains_exactly_cutoff`: an entry ending exactly at
the cutoff (`now = 2635200`, `m = 1`, so cutoff `0`) survives pruning. -/
theorem prune_retains_exactly_cutoff_witness :
    (⟨-5, 0⟩ : Entry) ∈ (pruneOldLogs ⟨[⟨-5, 0⟩], [], none⟩ 2635200 1).1.workLog :=
  (prune_retains_exactly_cutoff ⟨[⟨-5, 0⟩], [], none⟩ 2635200 1).2 ⟨-5, 0⟩
    (List.mem_singleton.mpr rfl) (by norm_num)

/-- C6: pruning is idempotent — applying `prune` a second time with the same
cutoff (same `now` and `m`, no entries added in between) removes zero
entries and leaves the store identical. -/
theorem prune_idempotent (s : FSState) (now m : Int) :
    pruneOldLogs (pruneOldLogs s now m).1 now m = ((pruneOldLogs s now m).1, 0) := by
  have h1 := pruneOldLogs_fst s now m
  generalize hs1 : (pruneOldLogs s now m).1 = s1 at h1 ⊢
  have hall : ∀ e ∈ s1.workLog,
      (fun e => decide (now - m * 2635200 ≤ e.stop)) e = true := by
    intro e he
    rw [h1] at he
    exact (List.mem_filter.mp he).2
  have hfix : s1.workLog.filter (fun e => decide (now - m * 2635200 ≤ e.stop))
      = s1.workLog :=
    List.filter_eq_self.mpr hall
  unfold pruneOldLogs
  by_cases hempty : s1.workLog = []
  · rw [if_pos hempty]
  · rw [if_neg hempty]
    dsimp only
    rw [hfix]
    simp

/-- C1: starting from Idle at clock reading `t1` and stopping at `t2`
(automatic pruning reading the clock at `t3`, within the six-month retention
window of `t2`), exactly one entry `{start := t1, end := t2}` is appended to
the work log (the rest of the log is what default pruning retains of the old
entries), its `end - start` equals the elapsed time `t2 - t1` between the
two clock readings, both operations succeed, and the Active Session Marker
is absent afterwards; the to-do list is untouched. -/
theorem start_then_stop_appends_one_entry (s : FSState) (t1 t2 t3 : Int)
    (hidle : s.activeSession = none)
    (hclock : t3 ≤ t2 + DEFAULT_MONTHS_TO_KEEP * 2635200) :
    (startWork s t1).err = none ∧
    (stopWork (startWork s t1).state t2 t3).err = none ∧
    (stopWork (startWork s t1).state t2 t3).state.workLog
      = s.workLog.filter
          (fun e => decide (t3 - DEFAULT_MONTHS_TO_KEEP * 2635200 ≤ e.stop))
        ++ [⟨t1, t2⟩] ∧
    (⟨t1, t2⟩ : Entry).stop - (⟨t1, t2⟩ : Entry).start = t2 - t1 ∧
    (stopWork (startWork s t1).state t2 t3).state.activeSession = none ∧
    (stopWork (startWork s t1).state t2 t3).state.todos = s.todos := by
  have hstart : startWork s t1 = ⟨{ s with activeSession := some ⟨t1⟩ }, none⟩ := by
    unfold startWork
    rw [hidle]
  have hkeep :
      decide (t3 - DEFAULT_MONTHS_TO_KEEP * 2635200 ≤ (⟨t1, t2⟩ : Entry).stop)
        = true := by
    have h : t3 - DEFAULT_MONTHS_TO_KEEP * 2635200 ≤ t2 := by
      unfold DEFAULT_MONTHS_TO_KEEP at hclock ⊢
      omega
    exact decide_eq_true h
  have happ :
      (s.workLog ++ [(⟨t1, t2⟩ : Entry)]).filter
          (fun e => decide (t3 - DEFAULT_MONTHS_TO_KEEP * 2635200 ≤ e.stop))
        = s.workLog.filter
            (fun e => decide (t3 - DEFAULT_MONTHS_TO_KEEP * 2635200 ≤ e.stop))
          ++ [⟨t1, t2⟩] := by
    rw [List.filter_append]
    congr 1
    rw [List.filter_cons_of_pos, List.filter_nil]
    exact hkeep
  have hstop : stopWork { s with activeSession := some ⟨t1⟩ } t2 t3 =
      ⟨⟨s.workLog.filter
          (fun e => decide (t3 - DEFAULT_MONTHS_TO_KEEP * 2635200 ≤ e.stop))
        ++ [⟨t1, t2⟩], s.todos, none⟩, none⟩ := by
    unfold stopWork
    dsimp only
    rw [pruneOldLogs_fst]
    dsimp only
    rw [happ]
  rw [hstart]
  dsimp only
  rw [hstop]
  exact ⟨rfl, rfl, rfl, rfl, rfl, rfl⟩

/-- Witness for `start_then_stop_appends_one_entry`: starting at `0` and
stopping at `10` on an empty store logs exactly `{start := 0, end := 10}`. -/
theorem start_then_stop_appends_one_entry_witness :
    (startWork ⟨[], [], none⟩ 0).err = none ∧
    (stopWork (startWork ⟨[], [], none⟩ 0).state 10 10).state.workLog
      = [⟨0, 10⟩] ∧
    (stopWork (startWork ⟨[], [], none⟩ 0).state 10 10).state.activeSession
      = none := by
  have h := start_then_stop_appends_one_entry ⟨[], [], none⟩ 0 10 10 rfl
    (by norm_num [DEFAULT_MONTHS_TO_KEEP])
  refine ⟨h.1, ?_, h.2.2.2.2.1⟩
  rw [h.2.2.1]
  rfl

/-- C7: the deadline check classifies each item with a parsable deadline as
overdue exactly when `deadline < today` and as upcoming exactly when
`today <= deadline <= today + 2 days`; items with an absent or unparsable
deadline satisfy neither predicate, so they appear in neither list, and both
output lists are filters of the input, hence preserve the original item
order; the check is total (no error). -/
theorem checkDeadlines_classification (todos : List Todo) (today : Date) :
    checkDeadlines todos today =
      (todos.filter (overdueP today), todos.filter (upcomingP today)) := by
  unfold checkDeadlines
  rcases hany : todos.any truthyDeadline with _ | _
  · have hnone : ∀ t ∈ todos, truthyDeadline t = false := by
      intro t ht
      have := List.any_eq_false.mp hany t ht
      simpa using this
    have hov : todos.filter (overdueP today) = [] := by
      rw [List.filter_eq_nil_iff]
      intro t ht
      rw [overdueP, deadlineDate_of_not_truthy t (hnone t ht)]
      simp
    have hup : todos.filter (upcomingP today) = [] := by
      rw [List.filter_eq_nil_iff]
      intro t ht
      rw [upcomingP, deadlineDate_of_not_truthy t (hnone t ht)]
      simp
    simp [hov, hup]
  · simp [classifyDeadlines_eq_filter]

/-- C8 counterexample: the empty string does not parse as a `YYYY-MM-DD`
date, yet `add` with deadline `""` does NOT fail — Python's `if deadline:`
treats the empty string as "no deadline given", so the item is appended
(without a deadline) and the store changes. -/
theorem addTodo_empty_deadline_counterexample :
    parseDate "" = none ∧
    addTodo ⟨[], [], none⟩ "t" "General" (some "") =
      ⟨⟨[], [⟨"t", "General", none⟩], none⟩, none⟩ := by
  exact ⟨rfl, rfl⟩

/-- C8 (amended): for every NON-EMPTY deadline string that does not parse as
a `YYYY-MM-DD` calendar date, `add` fails with `InvalidDeadlineFormat` and
writes nothing — the persisted to-do list after the failed add is the list
before it. (The empty string is excluded: `if deadline:` treats it as no
deadline at all.) -/
theorem addTodo_invalid_deadline_fails (s : FSState) (task group d : String)
    (hne : d ≠ "") (hbad : parseDate d = none) :
    addTodo s task group (some d) = ⟨s, some WError.invalidDeadlineFormat⟩ := by
  unfold addTodo
  dsimp only
  rw [if_pos hne, hbad]

/-- Witness for `addTodo_invalid_deadline_fails` at the spec's own test
input `"2024-13-01"` (month 13). -/
theorem addTodo_invalid_deadline_fails_witness :
    addTodo ⟨[], [], none⟩ "t" "General" (some "2024-13-01") =
      ⟨⟨[], [], none⟩, some WError.invalidDeadlineFormat⟩ :=
  addTodo_invalid_deadline_fails ⟨[], [], none⟩ "t" "General" "2024-13-01"
    (by decide) (by decide)

/-- C9: `remove(id)` with `id` outside `1 <= id <= count` fails with
`InvalidId` and performs no mutation; with `id` in range it removes exactly
the item at 1-based position `id`, every later item shifting down one
position in the persisted list (`take (id-1) ++ drop id`). -/
theorem removeTodo_spec (s : FSState) (id : Int) :
    (¬(1 ≤ id ∧ id ≤ s.todos.length) →
      removeTodo s id = ⟨s, some WError.invalidId⟩) ∧
    ((1 ≤ id ∧ id ≤ s.todos.length) →
      removeTodo s id =
        ⟨{ s with todos := s.todos.take (id - 1).toNat ++ s.todos.drop id.toNat },
          none⟩) := by
  constructor
  · intro h
    unfold removeTodo
    rw [if_neg (by omega)]
  · intro h
    unfold removeTodo
    rw [if_pos (by omega)]
    have hsucc : (id - 1).toNat + 1 = id.toNat := by omega
    rw [List.eraseIdx_eq_take_drop_succ, hsucc]

/-- Witness for `removeTodo_spec`: on a three-item list, `remove 4` fails
with `InvalidId` and changes nothing, while `remove 1` drops the first item
and shifts the other two down. -/
theorem removeTodo_spec_witness :
    removeTodo ⟨[], [⟨"a", "G", none⟩, ⟨"b", "G", none⟩, ⟨"c", "G", none⟩], none⟩ 4
      = ⟨⟨[], [⟨"a", "G", none⟩, ⟨"b", "G", none⟩, ⟨"c", "G", none⟩], none⟩,
          some WError.invalidId⟩ ∧
    removeTodo ⟨[], [⟨"a", "G", none⟩, ⟨"b", "G", none⟩, ⟨"c", "G", none⟩], none⟩ 1
      = ⟨⟨[], [⟨"b", "G", none⟩, ⟨"c", "G", none⟩], none⟩, none⟩ := by
  constructor
  · exact (removeTodo_spec
      ⟨[], [⟨"a", "G", none⟩, ⟨"b", "G", none⟩, ⟨"c", "G", none⟩], none⟩ 4).1
      (by decide)
  · have h := (removeTodo_spec
      ⟨[], [⟨"a", "G", none⟩, ⟨"b", "G", none⟩, ⟨"c", "G", none⟩], none⟩ 1).2
      (by decide)
    rw [h]
    rfl

/-- C10: the read-only queries — `status`, the weekly log display, the
deadline check and the to-do listing — modify no persisted record: each
returns the store exactly as it was, for every starting store and every
clock/offset/date input. -/
theorem queries_read_only (s : FSState) (now off : Int) (today : Date) :
    (showStatus s now).1 = s ∧ (showLog s now off).1 = s ∧
    (checkDeadlinesOp s today).1 = s ∧ (listTodos s).1 = s := by
  refine ⟨?_, ?_, rfl, ?_⟩
  · unfold showStatus
    cases hs : s.activeSession <;> rfl
  · unfold showLog
    split <;> rfl
  · unfold listTodos
    split <;> rfl

end WorkManager
